import Mathlib

/-!
Shallow embedding of the Stackdriver input plugin of circonus-unified-agent
(file `plugins/inputs/stackdriver/stackdriver.go`).

Conventions of the embedding:
* Go `time.Time` and `time.Duration` are modelled as `Int` (a count of
  time units; the Go zero time is `0`).  `time.Now()` is passed in
  explicitly as a `now` argument.
* Go `float64` values are modelled as `ℚ` (the claims under scrutiny are
  about exact bucket arithmetic, never about rounding).
* Go maps are modelled as association lists with insert-or-replace
  (`listUpsert`), preserving Go's overwrite semantics.
* Go `nil` slices / `nil` pointers are modelled with `Option`; a nil
  pointer dereference (a Go panic) is modelled by an `Option.none`
  result of the whole function.
-/

namespace CUA

/-- Insert-or-replace into an association list, mirroring a Go map write
`m[k] = v`: if the key is present its value is replaced in place,
otherwise the pair is appended. -/
def listUpsert {α β : Type} [DecidableEq α] (m : List (α × β)) (k : α) (v : β) :
    List (α × β) :=
  if k ∈ m.map Prod.fst then
    m.map (fun p => if p.1 = k then (k, v) else p)
  else
    m ++ [(k, v)]

theorem listUpsert_of_not_mem {α β : Type} [DecidableEq α]
    (m : List (α × β)) (k : α) (v : β) (h : k ∉ m.map Prod.fst) :
    listUpsert m k v = m ++ [(k, v)] := by
  simp [listUpsert, h]

/-! ## Data model (structs of the Go source) -/

/-- Go struct `monitoringpb.TimeInterval` restricted to the fields the
plugin sets (start and end Unix timestamps). -/
structure TimeInterval where
  endTime : Int
  startTime : Int
deriving Repr, DecidableEq

/-- Go struct `monitoringpb.Aggregation` restricted to the fields the
plugin sets: a 60-second alignment period and a per-series aligner,
the latter as the raw enum value (`Int`). -/
structure Aggregation where
  alignmentPeriodSeconds : Int
  perSeriesAligner : Int
deriving Repr, DecidableEq

/-- Go struct `monitoringpb.ListTimeSeriesRequest` restricted to the
fields the plugin sets. -/
structure ListTimeSeriesRequest where
  name : String
  filter : String
  interval : TimeInterval
  aggregation : Option Aggregation
deriving Repr, DecidableEq

/-- Go struct `timeSeriesConf`. -/
structure TimeSeriesConf where
  listTimeSeriesRequest : ListTimeSeriesRequest
  measurement : String
  fieldKey : String
deriving Repr, DecidableEq

/-- Go struct `Label` (key and value of a configured filter entry). -/
structure Label where
  key : String
  value : String
deriving Repr, DecidableEq

/-- Go struct `ListTimeSeriesFilter`. -/
structure ListTimeSeriesFilter where
  resourceLabels : List Label
  metricLabels : List Label
deriving Repr, DecidableEq

/-- Go struct `timeSeriesConfCache`.  `timeSeriesConfs = none` models a
Go `nil` slice (a freshly stored cache always holds a non-nil slice). -/
structure TimeSeriesConfCache where
  generated : Int
  timeSeriesConfs : Option (List TimeSeriesConf)
  ttl : Int
deriving Repr, DecidableEq

/-- Go struct `Stackdriver`: the engine instance.  `client` is not a
field here; the abstract metric client is passed to the functions that
use it.  `prevEnd` and `timeSeriesConfCache` are the mutable,
cycle-persistent parts. -/
structure Stackdriver where
  prevEnd : Int
  timeSeriesConfCache : Option TimeSeriesConfCache
  filter : Option ListTimeSeriesFilter
  project : String
  metricTypePrefixExclude : List String
  metricTypePrefixInclude : List String
  distributionAggregationAligners : List String
  cacheTTL : Int
  delay : Int
  window : Int
  rateLimit : Int
  gatherRawDistributionBuckets : Bool
deriving Repr, DecidableEq

/-- Go constant `defaultRateLimit = 14`. -/
def defaultRateLimit : Int := 14

/-- Go package variable `defaultWindow = 1 * time.Minute`, in seconds. -/
def defaultWindowDuration : Int := 60

/-! ## Window scheduler (`updateWindow`, and its use in `Gather`) -/

/-- Go method `(*Stackdriver).updateWindow`: returns the `(start, end)`
pair for the next collection.  The Go source calls `time.Now()` for both
computations within one invocation; the single `now` argument stands for
it. `prevEnd.IsZero()` is `prevEnd = 0` under the Int model of time. -/
def Stackdriver.updateWindow (s : Stackdriver) (now prevEnd : Int) : Int × Int :=
  let start : Int :=
    if s.window ≠ 0 then now - s.delay - s.window
    else if prevEnd = 0 then now - s.delay - defaultWindowDuration
    else prevEnd
  (start, now - s.delay)

/-- Go `Gather` lines 294-295: `start, end := s.updateWindow(s.prevEnd);
s.prevEnd = end` — the window computation plus persistence of the new
end on the engine instance. -/
def Stackdriver.advanceWindow (s : Stackdriver) (now : Int) :
    (Int × Int) × Stackdriver :=
  let se := s.updateWindow now s.prevEnd
  (se, { s with prevEnd := se.2 })

/-! ## Filter-string construction (`newListTimeSeriesFilter`) -/

/-- Go helper `includeExcludeHelper`: with a non-empty include list the
key passes iff some include string is a prefix of it; otherwise with a
non-empty exclude list it passes iff no exclude string is a prefix of
it; otherwise it passes. -/
def includeExcludeHelper (key : String) (includes excludes : List String) : Bool :=
  if includes.length > 0 then
    includes.any (fun s => s.isPrefixOf key)
  else if excludes.length > 0 then
    !(excludes.any (fun s => s.isPrefixOf key))
  else
    true

/-- Go local `functions` of `newListTimeSeriesFilter`: the recognized
filter function names. -/
def filterFunctions : List String :=
  ["starts_with", "ends_with", "has_substring", "one_of"]

/-- One rendered label clause of `newListTimeSeriesFilter`: the category
string is `"resource.labels."` or `"metric.labels."`; the value is left
unquoted exactly when `includeExcludeHelper(value, functions, nil)`
holds (the value begins with a recognized filter function name). -/
def renderLabelClause (category : String) (l : Label) : String :=
  if includeExcludeHelper l.value filterFunctions [] then
    category ++ l.key ++ " = " ++ l.value
  else
    category ++ l.key ++ " = \"" ++ l.value ++ "\""

/-- The `if len(...) == 1` / `else` appending step of
`newListTimeSeriesFilter` for one label category. -/
def appendLabelClauses (filterString : String) (category : String)
    (labels : List Label) : String :=
  match labels.map (renderLabelClause category) with
  | [] => filterString
  | [c] => filterString ++ " AND " ++ c
  | cs => filterString ++ " AND (" ++ String.intercalate " OR " cs ++ ")"

/-- Go method `(*Stackdriver).newListTimeSeriesFilter`: base clause on
the metric type, then the resource-label block, then the metric-label
block (each appended only when non-empty). -/
def Stackdriver.newListTimeSeriesFilter (s : Stackdriver) (metricType : String) :
    String :=
  let filterString := "metric.type = \"" ++ metricType ++ "\""
  match s.filter with
  | none => filterString
  | some f =>
    let filterString :=
      if f.resourceLabels.length > 0 then
        appendLabelClauses filterString "resource.labels." f.resourceLabels
      else filterString
    if f.metricLabels.length > 0 then
      appendLabelClauses filterString "metric.labels." f.metricLabels
    else filterString

/-! ## Measurement / field-key derivation (`newTimeSeriesConf`) -/

/-- Index of the last occurrence of a character in a character list,
`-1` when absent. -/
def lastIndexOfCharList (l : List Char) (c : Char) : Int :=
  match l with
  | [] => -1
  | x :: xs =>
    let r := lastIndexOfCharList xs c
    if r ≥ 0 then r + 1
    else if x = c then 0
    else -1

/-- Go `strings.LastIndex(s, "/")` for a single character: the index of
the last occurrence, `-1` when absent (character positions; the strings
involved are ASCII so byte and rune positions agree). -/
def lastIndexOfChar (s : String) (c : Char) : Int :=
  lastIndexOfCharList s.toList c

/-- Go method `(*Stackdriver).newTimeSeriesConf`: builds the list
request and derives measurement / field key by splitting the metric
type at its last slash — but only when that slash sits at a positive
index (`slashIdx > 0` in the source). -/
def Stackdriver.newTimeSeriesConf (s : Stackdriver) (metricType : String)
    (startTime endTime : Int) : TimeSeriesConf :=
  let filter := s.newListTimeSeriesFilter metricType
  let tsReq : ListTimeSeriesRequest :=
    { name := "projects/" ++ s.project
      filter := filter
      interval := { endTime := endTime, startTime := startTime }
      aggregation := none }
  let cfg : TimeSeriesConf :=
    { measurement := metricType, fieldKey := "value", listTimeSeriesRequest := tsReq }
  let slashIdx := lastIndexOfChar metricType '/'
  if slashIdx > 0 then
    { cfg with
        measurement := (metricType.toList.take slashIdx.toNat).asString
        fieldKey := (metricType.toList.drop (slashIdx.toNat + 1)).asString }
  else cfg

/-! ## Aggregation aligners (`initForAggregate`) -/

/-- The generated protobuf table `monitoringpb.Aggregation_Aligner_value`
(name to enum value), as in `google.monitoring.v3`. -/
def aggregationAlignerTable : List (String × Int) :=
  [("ALIGN_NONE", 0), ("ALIGN_DELTA", 1), ("ALIGN_RATE", 2),
   ("ALIGN_INTERPOLATE", 3), ("ALIGN_NEXT_OLDER", 4), ("ALIGN_MIN", 10),
   ("ALIGN_MAX", 11), ("ALIGN_MEAN", 12), ("ALIGN_COUNT", 13),
   ("ALIGN_SUM", 14), ("ALIGN_STDDEV", 15), ("ALIGN_COUNT_TRUE", 16),
   ("ALIGN_COUNT_FALSE", 24), ("ALIGN_FRACTION_TRUE", 17),
   ("ALIGN_PERCENTILE_99", 18), ("ALIGN_PERCENTILE_95", 19),
   ("ALIGN_PERCENTILE_50", 20), ("ALIGN_PERCENTILE_05", 21),
   ("ALIGN_PERCENT_CHANGE", 23)]

/-- Go map read `monitoringpb.Aggregation_Aligner_value[s]` with its
`, ok` form: the value (zero when absent) and the presence flag. -/
def alignerValueLookup (s : String) : Int × Bool :=
  match aggregationAlignerTable.lookup s with
  | some v => (v, true)
  | none => (0, false)

/-- Go map read `monitoringpb.Aggregation_Aligner_name[v]`: the name for
an enum value, or the zero string when absent. -/
def alignerNameLookup (v : Int) : String :=
  match aggregationAlignerTable.find? (fun p => p.2 == v) with
  | some p => p.1
  | none => ""

/-- Go `strings.ToLower` on one ASCII character (the aligner names are
plain ASCII). -/
def charToLower (c : Char) : Char :=
  if 'A' ≤ c ∧ c ≤ 'Z' then Char.ofNat (c.toNat + 32) else c

/-- Go `strings.ToLower`, restricted to ASCII input. -/
def strToLower (s : String) : String :=
  (s.toList.map charToLower).asString

/-- Go method `(*timeSeriesConf).initForAggregate`: looks the configured
aligner name up in the enum table; when absent, replaces the name with
the name of the zero enum value obtained from the reverse table; then
attaches a 60-second aggregation with that aligner and suffixes the
field key with an underscore and the lowercased name. -/
def TimeSeriesConf.initForAggregate (t : TimeSeriesConf) (alignerStr : String) :
    TimeSeriesConf :=
  let vi := alignerValueLookup alignerStr
  let alignerInt := vi.1
  let alignerStr := if !vi.2 then alignerNameLookup alignerInt else alignerStr
  let agg : Aggregation :=
    { alignmentPeriodSeconds := 60, perSeriesAligner := alignerInt }
  { t with
      fieldKey := t.fieldKey ++ "_" ++ strToLower alignerStr
      listTimeSeriesRequest := { t.listTimeSeriesRequest with aggregation := some agg } }

/-! ## Config cache validity (`timeSeriesConfCache.IsValid`) -/

/-- Go method `(*timeSeriesConfCache).IsValid`: the cached conf slice is
non-nil and the age (`time.Since(Generated)`, here `now - generated`) is
below the TTL. -/
def TimeSeriesConfCache.IsValid (c : TimeSeriesConfCache) (now : Int) : Bool :=
  c.timeSeriesConfs.isSome && decide (now - c.generated < c.ttl)

/-! ## Distribution bucket conversion (`distributionToCircHisto`) -/

/-- Go protobuf message `Distribution_BucketOptions_Linear`. -/
structure LinearBuckets where
  numFiniteBuckets : Int
  width : ℚ
  offset : ℚ
deriving Repr, DecidableEq

/-- Go protobuf message `Distribution_BucketOptions_Exponential`. -/
structure ExponentialBuckets where
  numFiniteBuckets : Int
  growthFactor : ℚ
  scale : ℚ
deriving Repr, DecidableEq

/-- Go protobuf message `Distribution_BucketOptions_Explicit` (its
`Bounds` slice). -/
structure ExplicitBuckets where
  bounds : List ℚ
deriving Repr, DecidableEq

/-- The oneof inside `Distribution_BucketOptions`: exactly one of the
three layouts. -/
inductive BucketLayout where
  | linear (lb : LinearBuckets)
  | exponential (eb : ExponentialBuckets)
  | explicitBounds (xb : ExplicitBuckets)
deriving Repr, DecidableEq

/-- Go protobuf message `Distribution_Range`. -/
structure DistRange where
  min : ℚ
  max : ℚ
deriving Repr, DecidableEq

/-- Go protobuf message `distributionpb.Distribution`, restricted to the
fields the plugin reads.  `bucketOptions = none` models a nil
`BucketOptions` message (or an unset oneof): all three getters return
nil in Go. -/
structure Distribution where
  count : Int
  mean : ℚ
  sumOfSquaredDeviation : ℚ
  range : Option DistRange
  bucketOptions : Option BucketLayout
  bucketCounts : List Int
deriving Repr, DecidableEq

/-- Go getter `options.GetLinearBuckets()`: nil unless the oneof holds
the linear layout. -/
def getLinearBuckets (options : Option BucketLayout) : Option LinearBuckets :=
  match options with
  | some (.linear lb) => some lb
  | _ => none

/-- Go getter `options.GetExponentialBuckets()`. -/
def getExponentialBuckets (options : Option BucketLayout) : Option ExponentialBuckets :=
  match options with
  | some (.exponential eb) => some eb
  | _ => none

/-- Go getter `options.GetExplicitBuckets()`. -/
def getExplicitBuckets (options : Option BucketLayout) : Option ExplicitBuckets :=
  match options with
  | some (.explicitBounds xb) => some xb
  | _ => none

/-- The overflow-bucket sentinel `10e+127` of the Go source, i.e.
`10^128`. -/
def overflowSentinel : ℚ := 10 ^ (128 : ℕ)

/-- The `upperBound` switch in the loop body of
`distributionToCircHisto` at index `i`: zero for the first bucket, the
sentinel for the last, else the layout formula; in the explicit case the
Go source indexes `Bounds[i]` directly, so an out-of-range index (a Go
panic) yields `none`.  When no case matches, the Go `upperBound`
variable keeps its zero value. -/
def bucketUpperBound (lb : Option LinearBuckets) (eb : Option ExponentialBuckets)
    (xb : Option ExplicitBuckets) (numBuckets : Int) (i : ℕ) : Option ℚ :=
  if (i : Int) = 0 then some 0
  else if (i : Int) = numBuckets - 1 then some overflowSentinel
  else
    match lb, eb, xb with
    | some l, _, _ => some (l.offset + l.width * (i : ℚ))
    | none, some e, _ => some (e.scale * e.growthFactor ^ i)
    | none, none, some x => x.bounds.get? i
    | none, none, none => some 0

/-- The `localCount` computation of the loop body of
`distributionToCircHisto`: the raw bucket count when `i` is in range of
the (possibly truncated) counts slice, zero otherwise. -/
def localBucketCount (counts : List Int) (i : ℕ) : Int :=
  if i < counts.length then counts.getD i 0 else 0

/-- One iteration of the `for i = 0; i < numBuckets; i++` loop of
`distributionToCircHisto`: a bucket with positive local count is
written into the Go map (insert-or-replace) under its upper bound.  A
failing bound computation (Go panic) aborts with `none`. -/
def circHistoStep (counts : List Int) (boundF : ℕ → Option ℚ)
    (ret : List (ℚ × Int)) (i : ℕ) : Option (List (ℚ × Int)) :=
  let localCount : Int := localBucketCount counts i
  if localCount > 0 then
    (boundF i).map (fun ub => listUpsert ret ub localCount)
  else
    some ret

/-- The whole bucket loop of `distributionToCircHisto`. -/
def circHistoLoop (counts : List Int) (boundF : ℕ → Option ℚ) (n : ℕ) :
    Option (List (ℚ × Int)) :=
  (List.range n).foldlM (circHistoStep counts boundF) []

/-- The `numBuckets` switch of `distributionToCircHisto`:
`NumFiniteBuckets + 2` for the linear and exponential layouts and
`len(Bounds) + 1` in the default branch; in that default branch the Go
source dereferences `explicitBuckets.Bounds`, which panics when the
explicit layout is absent — modelled by `none`. -/
def circNumBuckets (lb : Option LinearBuckets) (eb : Option ExponentialBuckets)
    (xb : Option ExplicitBuckets) : Option Int :=
  match lb with
  | some l => some (l.numFiniteBuckets + 2)
  | none =>
    match eb with
    | some e => some (e.numFiniteBuckets + 2)
    | none => xb.map (fun x => (x.bounds.length : Int) + 1)

/-- Go function `distributionToCircHisto` (its first `Stackdriver`
argument is unused in the source and dropped here): the bucket-count
switch followed by the bucket loop. -/
def distributionToCircHisto (metric : Distribution)
    (options : Option BucketLayout) : Option (List (ℚ × Int)) :=
  let lb := getLinearBuckets options
  let eb := getExponentialBuckets options
  let xb := getExplicitBuckets options
  match circNumBuckets lb eb xb with
  | none => none
  | some numBuckets =>
    circHistoLoop metric.bucketCounts (bucketUpperBound lb eb xb numBuckets)
      numBuckets.toNat

/-! ## Samples, grouper writes and emitted metrics (`addDistribution`,
`gatherTimeSeries`, `Gather`) -/

/-- The scalar field values the plugin hands to the grouper (Go passes
them as `interface{}`). -/
inductive FieldValue where
  | i (n : Int)
  | q (x : ℚ)
  | s (str : String)
deriving Repr, DecidableEq

/-- One call `grouper.Add(measurement, tags, tm, field, fieldValue)`. -/
structure GrouperAdd where
  measurement : String
  tags : List (String × String)
  tm : Int
  field : String
  value : FieldValue
deriving Repr, DecidableEq

/-- Go enum `metricpb.MetricDescriptor_MetricKind`. -/
inductive MetricKind where
  | unspecified
  | gauge
  | delta
  | cumulative
deriving Repr, DecidableEq

/-- The `cua.ValueType` constants used for the histogram metric built in
`addDistribution`. -/
inductive HistoKind where
  | histogram
  | cumulativeHistogram
deriving Repr, DecidableEq

/-- The histogram-typed metric built by `addDistribution` via
`cuametric.New(field, newTags, fields, ts, mk)` and handed to
`acc.AddMetric`: its fields are the sparse bucket map (bucket keys
modelled by their numeric upper bound, see `distributionToCircHisto`). -/
structure HistoMetric where
  name : String
  tags : List (String × String)
  fields : List (ℚ × Int)
  tm : Int
  kind : HistoKind
deriving Repr, DecidableEq

/-- Go method `(*Stackdriver).addDistribution`: the grouper writes (in
program order) and the optionally emitted histogram metric.  A panic
inside `distributionToCircHisto` (nil bucket options) is modelled by a
`none` result for the whole call. -/
def addDistribution (metric : Distribution) (tags : List (String × String))
    (ts : Int) (tsConf : TimeSeriesConf) (metricKind : MetricKind) :
    Option (List GrouperAdd × Option HistoMetric) :=
  let field := tsConf.fieldKey
  let name := tsConf.measurement
  let adds : List GrouperAdd :=
    [⟨name, tags, ts, field ++ "_count", .i metric.count⟩,
     ⟨name, tags, ts, field ++ "_mean", .q metric.mean⟩,
     ⟨name, tags, ts, field ++ "_sum_of_squared_deviation",
       .q metric.sumOfSquaredDeviation⟩]
  let adds := adds ++
    (match metric.range with
     | some r =>
       [⟨name, tags, ts, field ++ "_range_min", .q r.min⟩,
        ⟨name, tags, ts, field ++ "_range_max", .q r.max⟩]
     | none => [])
  match distributionToCircHisto metric metric.bucketOptions with
  | none => none
  | some circhisto =>
    let newTags := listUpsert tags "input_metric_group" name
    if circhisto.length > 0 then
      let mk : HistoKind :=
        if metricKind = .cumulative then .cumulativeHistogram else .histogram
      some (adds, some ⟨field, newTags, circhisto, ts, mk⟩)
    else
      some (adds, none)

/-! ## Metric-type discovery and the config builder
(`includeMetricType`, `newListMetricDescriptorsFilters`,
`generatetimeSeriesConfs`) -/

/-- Go enum `metricpb.MetricDescriptor_ValueType`, restricted to the
distinction the builder makes. -/
inductive ValueType where
  | bool
  | int64
  | double
  | str
  | distribution
  | other
deriving Repr, DecidableEq

/-- Go protobuf message `metricpb.MetricDescriptor`, restricted to the
fields the builder reads. -/
structure MetricDescriptor where
  descriptorType : String
  valueType : ValueType
deriving Repr, DecidableEq

/-- Go method `(*Stackdriver).includeMetricType`. -/
def Stackdriver.includeMetricType (s : Stackdriver) (metricType : String) : Bool :=
  includeExcludeHelper metricType s.metricTypePrefixInclude s.metricTypePrefixExclude

/-- Go method `(*Stackdriver).newListMetricDescriptorsFilters`. -/
def Stackdriver.newListMetricDescriptorsFilters (s : Stackdriver) : List String :=
  s.metricTypePrefixInclude.map
    (fun p => "metric.type = starts_with(\"" ++ p ++ "\")")

/-- The per-descriptor body of the `for metricDescriptor := range
mdRespChan` loop of `generatetimeSeriesConfs`: configs appended for one
accepted descriptor (raw distribution config first when enabled, then
one config per configured aligner; a single scalar config otherwise). -/
def Stackdriver.confsForDescriptor (s : Stackdriver) (md : MetricDescriptor)
    (startTime endTime : Int) : List TimeSeriesConf :=
  if md.valueType = ValueType.distribution then
    (if s.gatherRawDistributionBuckets then
       [s.newTimeSeriesConf md.descriptorType startTime endTime]
     else []) ++
    s.distributionAggregationAligners.map
      (fun a => (s.newTimeSeriesConf md.descriptorType startTime endTime).initForAggregate a)
  else
    [s.newTimeSeriesConf md.descriptorType startTime endTime]

/-- The abstract metric client's `ListMetricDescriptors` capability: a
filter string to either a hard error or the full (finite) descriptor
stream.  Cooperative cancellation is not modelled. -/
def DescriptorClient : Type := String → Except String (List MetricDescriptor)

/-- The discovery loop of the cache-miss path of
`generatetimeSeriesConfs`: over the filter list (the single empty
filter when no include prefixes are configured), list descriptors — a
listing error aborts with the wrapped error — apply the client-side
include/exclude check, and build the configs for each surviving
descriptor in order. -/
def Stackdriver.discoverConfs (s : Stackdriver) (client : DescriptorClient)
    (startTime endTime : Int) : Except String (List TimeSeriesConf) :=
  let filters :=
    match s.newListMetricDescriptorsFilters with
    | [] => [""]
    | fs => fs
  filters.foldlM
    (fun (acc : List TimeSeriesConf) filter =>
      match client filter with
      | .error e => .error ("list metric descriptors: " ++ e)
      | .ok mds =>
        let accepted := mds.filter
          (fun md => !(filter == "" && !s.includeMetricType md.descriptorType))
        pure (acc ++ accepted.flatMap (fun md => s.confsForDescriptor md startTime endTime)))
    []

/-- The cache-miss path of `generatetimeSeriesConfs`: discovery, then
the cache store with `generated = now` and the configured TTL. -/
def Stackdriver.generatetimeSeriesConfsBuild (s : Stackdriver)
    (client : DescriptorClient) (now startTime endTime : Int) :
    Except String (List TimeSeriesConf × Stackdriver) :=
  match s.discoverConfs client startTime endTime with
  | .error e => .error e
  | .ok ret =>
    let newCache : TimeSeriesConfCache :=
      { timeSeriesConfs := some ret, generated := now, ttl := s.cacheTTL }
    .ok (ret, { s with timeSeriesConfCache := some newCache })

/-- Go method `(*Stackdriver).generatetimeSeriesConfs`.  On a valid
cache: every cached config's request interval is refreshed to the
current window and the cached configs are returned, with no use of the
client.  Otherwise the build path runs (see
`generatetimeSeriesConfsBuild`) — a listing error aborts the whole
call.  Returns the configs together with the updated engine state. -/
def Stackdriver.generatetimeSeriesConfs (s : Stackdriver)
    (client : DescriptorClient) (now startTime endTime : Int) :
    Except String (List TimeSeriesConf × Stackdriver) :=
  match s.timeSeriesConfCache with
  | some c =>
    if c.IsValid now then
      let interval : TimeInterval := { endTime := endTime, startTime := startTime }
      let refreshed := (c.timeSeriesConfs.getD []).map
        (fun tc =>
          { tc with listTimeSeriesRequest :=
              { tc.listTimeSeriesRequest with interval := interval } })
      Except.ok (refreshed,
        { s with timeSeriesConfCache := some { c with timeSeriesConfs := some refreshed } })
    else
      s.generatetimeSeriesConfsBuild client now startTime endTime
  | none =>
    s.generatetimeSeriesConfsBuild client now startTime endTime

/-! ## Series grouper and the collection cycle (`Gather`) -/

/-- One grouped metric of the series grouper, keyed by
(measurement, tag set, timestamp). -/
structure GroupedMetric where
  measurement : String
  tags : List (String × String)
  tm : Int
  fields : List (String × FieldValue)
deriving Repr, DecidableEq

/-- Modelled from the spec: the `SeriesGrouper` of the agent's `metric`
package (not under `src/`) merges each `Add` into the accumulation
keyed by (measurement, tag set, timestamp), fields accumulating by
field key within that tuple. -/
def grouperInsert (g : List GroupedMetric) (a : GrouperAdd) : List GroupedMetric :=
  if g.any (fun m => m.measurement = a.measurement ∧ m.tags = a.tags ∧ m.tm = a.tm) then
    g.map (fun m =>
      if m.measurement = a.measurement ∧ m.tags = a.tags ∧ m.tm = a.tm then
        { m with fields := listUpsert m.fields a.field a.value }
      else m)
  else
    g ++ [⟨a.measurement, a.tags, a.tm, [(a.field, a.value)]⟩]

/-- Modelled from the spec: `Metrics()` of the series grouper after a
sequence of `Add` calls. -/
def groupAdds (adds : List GrouperAdd) : List GroupedMetric :=
  adds.foldl grouperInsert []

/-- The accumulator's contents a cycle produces: the errors reported via
`acc.AddError` and the grouped metrics emitted via `acc.AddMetric`. -/
structure CycleOutput where
  errors : List String
  metrics : List GroupedMetric
deriving Repr, DecidableEq

/-- The abstract per-config fetch: what `gatherTimeSeries` contributes
for one config — either the wrapped `ListTimeSeries` call error (the
fetch then contributes no samples) or the list of grouper writes its
sample stream produces. -/
def FetchResult : Type := TimeSeriesConf → Except String (List GrouperAdd)

/-- The first lines of Go `Gather`: the rate-limit default is applied to
the engine state. -/
def Stackdriver.gatherPrep (s : Stackdriver) : Stackdriver :=
  if s.rateLimit = 0 then { s with rateLimit := defaultRateLimit.toNat } else s

/-- The fan-out loop of Go `Gather`: for each config the fetch runs and
`acc.AddError` records its error, if any (`AddError(nil)` is a no-op);
the grouper collects the writes of the successful fetches.  The
concurrent wave joined by the `WaitGroup` is modelled by the sequential
fold in config order. -/
def gatherFanOut (fetch : FetchResult) (tsConfs : List TimeSeriesConf) :
    List String × List GrouperAdd :=
  tsConfs.foldl
    (fun (acc : List String × List GrouperAdd) tc =>
      match fetch tc with
      | .error e => (acc.1 ++ ["list time series: " ++ e], acc.2)
      | .ok adds => (acc.1, acc.2 ++ adds))
    ([], [])

/-- The window-and-discovery prelude of Go `Gather`: rate-limit
default, window advance with persistence of `prevEnd`, then config
generation on the advanced state. -/
def Stackdriver.gatherGenerate (s : Stackdriver) (client : DescriptorClient)
    (now : Int) : Except String (List TimeSeriesConf × Stackdriver) :=
  let sp := s.gatherPrep
  let se := sp.advanceWindow now
  se.2.generatetimeSeriesConfs client now se.1.1 se.1.2

/-- Go method `(*Stackdriver).Gather`, one collection cycle:
rate-limit default, client initialization (its result passed in as
`initRes`; an error returns immediately), window advance with
persistence of `prevEnd`, config generation (an error returns
immediately), the rate-limited concurrent fan-out, and the final flush
of the grouper into the accumulator.  Returns the updated engine state
with the cycle's output, or the fatal error. -/
def Stackdriver.Gather (s : Stackdriver) (initRes : Except String Unit)
    (client : DescriptorClient) (fetch : FetchResult) (now : Int) :
    Except String (Stackdriver × CycleOutput) :=
  match initRes with
  | .error e => .error e
  | .ok _ =>
    match s.gatherGenerate client now with
    | .error e => .error e
    | .ok (tsConfs, s2) =>
      let ea := gatherFanOut fetch tsConfs
      .ok (s2, ⟨ea.1, groupAdds ea.2⟩)

/-! ## The locked series grouper (`lockedSeriesGrouper.Add`) -/

/-- Program counter of one fetcher thread executing one
`lockedSeriesGrouper.Add` call: before `g.Lock()`, between `g.Lock()`
and the delegated write, after the write but before the deferred
`g.Unlock()`, and after `g.Unlock()`. -/
inductive AddPC where
  | idle
  | locked
  | wrote
  | finished
deriving Repr, DecidableEq

/-- Shared state of the `lockedSeriesGrouper` with `n` concurrent
fetcher threads each performing one `Add` call: the mutex owner, each
thread's program counter, and the wrapped grouper contents. -/
structure GrouperSyncState (n : ℕ) where
  lockOwner : Option (Fin n)
  pc : Fin n → AddPC
  grouper : List GrouperAdd

/-- Interleaving semantics of `lockedSeriesGrouper.Add` (the Go source:
`g.Lock(); defer g.Unlock(); return g.SeriesGrouper.Add(...)`): a
thread may acquire the free mutex, then perform its delegated grouper
write while holding the mutex, then release the mutex. -/
inductive GrouperStep (n : ℕ) (adds : Fin n → GrouperAdd) :
    GrouperSyncState n → GrouperSyncState n → Prop where
  | lock (s : GrouperSyncState n) (t : Fin n) :
      s.lockOwner = none → s.pc t = .idle →
      GrouperStep n adds s
        { lockOwner := some t, pc := Function.update s.pc t .locked,
          grouper := s.grouper }
  | write (s : GrouperSyncState n) (t : Fin n) :
      s.lockOwner = some t → s.pc t = .locked →
      GrouperStep n adds s
        { lockOwner := some t, pc := Function.update s.pc t .wrote,
          grouper := s.grouper ++ [adds t] }
  | unlock (s : GrouperSyncState n) (t : Fin n) :
      s.lockOwner = some t → s.pc t = .wrote →
      GrouperStep n adds s
        { lockOwner := none, pc := Function.update s.pc t .finished,
          grouper := s.grouper }

/-- Initial state of a cycle's fan-out: mutex free, every fetcher about
to call `Add`, grouper empty. -/
def grouperInit (n : ℕ) : GrouperSyncState n :=
  { lockOwner := none, pc := fun _ => .idle, grouper := [] }

/-- Reachability under the interleaving semantics. -/
def GrouperReachable (n : ℕ) (adds : Fin n → GrouperAdd)
    (s : GrouperSyncState n) : Prop :=
  Relation.ReflTransGen (GrouperStep n adds) (grouperInit n) s

/-- A thread is inside the critical section of `Add`: after `g.Lock()`
and before `g.Unlock()`. -/
def inCriticalSection {n : ℕ} (s : GrouperSyncState n) (t : Fin n) : Prop :=
  s.pc t = .locked ∨ s.pc t = .wrote

/-- The per-thread lock-discipline invariant of the locked grouper: a
thread inside the critical section owns the mutex. -/
def grouperSyncInv {n : ℕ} (s : GrouperSyncState n) : Prop :=
  ∀ t, inCriticalSection s t → s.lockOwner = some t

/-! ## Reference definitions written from the specification's wording
(used to state refinement theorems against the source embedding) -/

/-- Spec wording for the errors a cycle's fan-out reports: one wrapped
entry per failing fetch, in config order. -/
def fetchErrors (fetch : FetchResult) (cs : List TimeSeriesConf) : List String :=
  cs.filterMap
    (fun tc =>
      match fetch tc with
      | .error e => some ("list time series: " ++ e)
      | .ok _ => none)

/-- Spec wording for the grouper writes a cycle's fan-out performs: the
writes of the successful fetches only, in config order — a failing
fetch contributes zero samples and siblings are unaffected. -/
def fetchAdds (fetch : FetchResult) (cs : List TimeSeriesConf) : List GrouperAdd :=
  (cs.filterMap (fun tc => (fetch tc).toOption)).flatten

/-- Spec wording for the quoting rule of filter values: a value is
emitted unquoted when it matches one of the recognized filter function
names, i.e. begins with one of them (as a function call such as
`one_of("a", "b")`). -/
def valueMatchesFilterFunction (v : String) : Bool :=
  filterFunctions.any (fun fn => fn.isPrefixOf v)

/-- Spec wording for one label clause `<category><key> = <value>`,
value quoted as a literal unless it matches a filter function. -/
def specLabelClause (category : String) (l : Label) : String :=
  if valueMatchesFilterFunction l.value then
    category ++ l.key ++ " = " ++ l.value
  else
    category ++ l.key ++ " = \"" ++ l.value ++ "\""

/-- Spec wording for one label category: nothing when unconfigured; a
single value AND-appended unparenthesized; multiple values OR-joined
and parenthesized. -/
def specLabelGroup (category : String) (labels : List Label) : String :=
  match labels with
  | [] => ""
  | [l] => " AND " ++ specLabelClause category l
  | ls => " AND (" ++ String.intercalate " OR " (ls.map (specLabelClause category)) ++ ")"

/-- Spec wording for the whole filter string: the base clause
`metric.type = "<type>"`, then the resource-label group, then the
metric-label group. -/
def specListTimeSeriesFilter (s : Stackdriver) (metricType : String) : String :=
  "metric.type = \"" ++ metricType ++ "\"" ++
    (match s.filter with
     | none => ""
     | some f =>
       specLabelGroup "resource.labels." f.resourceLabels ++
         specLabelGroup "metric.labels." f.metricLabels)

/-- Spec wording for the bucket-boundary count: `finiteBuckets + 2` for
the linear and exponential layouts, `len(explicitBounds) + 1` for the
explicit layout. -/
def specNumBuckets (layout : BucketLayout) : Int :=
  match layout with
  | .linear lb => lb.numFiniteBuckets + 2
  | .exponential eb => eb.numFiniteBuckets + 2
  | .explicitBounds xb => (xb.bounds.length : Int) + 1

/-- Spec wording for a bucket's upper bound: 0 at index 0, the
`10^128` sentinel at the final index, `offset + width * index` for
linear, `scale * growthFactor^index` for exponential, `bounds[index]`
for explicit. -/
def specBucketBound (layout : BucketLayout) (i : ℕ) : ℚ :=
  if (i : Int) = 0 then 0
  else if (i : Int) = specNumBuckets layout - 1 then overflowSentinel
  else
    match layout with
    | .linear lb => lb.offset + lb.width * (i : ℚ)
    | .exponential eb => eb.scale * eb.growthFactor ^ i
    | .explicitBounds xb => xb.bounds.getD i 0

/-- Spec wording for the entries the bucket loop produces over a given
index sequence: exactly the indices with a positive local count, keyed
by their upper bound, in index order. -/
def specLoopEntries (counts : List Int) (boundQ : ℕ → ℚ) (l : List ℕ) :
    List (ℚ × Int) :=
  l.filterMap
    (fun i =>
      let c := localBucketCount counts i
      if c > 0 then some (boundQ i, c) else none)

/-- Spec wording for the converted histogram: over all bucket indices,
exactly those with a positive local count appear, keyed by their upper
bound. -/
def specCircHisto (metric : Distribution) (layout : BucketLayout) :
    List (ℚ × Int) :=
  specLoopEntries metric.bucketCounts (specBucketBound layout)
    (List.range (specNumBuckets layout).toNat)

/-- Spec wording for the scalar companion fields of a distribution
sample: count, mean and sum-of-squared-deviation always, the range
bounds exactly when a range is present. -/
def specScalarCompanions (metric : Distribution) (tags : List (String × String))
    (ts : Int) (tsConf : TimeSeriesConf) : List GrouperAdd :=
  [⟨tsConf.measurement, tags, ts, tsConf.fieldKey ++ "_count", .i metric.count⟩,
   ⟨tsConf.measurement, tags, ts, tsConf.fieldKey ++ "_mean", .q metric.mean⟩,
   ⟨tsConf.measurement, tags, ts, tsConf.fieldKey ++ "_sum_of_squared_deviation",
     .q metric.sumOfSquaredDeviation⟩] ++
  (match metric.range with
   | some r =>
     [⟨tsConf.measurement, tags, ts, tsConf.fieldKey ++ "_range_min", .q r.min⟩,
      ⟨tsConf.measurement, tags, ts, tsConf.fieldKey ++ "_range_max", .q r.max⟩]
   | none => [])

/-- Spec wording for the histogram metric emitted for a distribution
sample: fields are the sparse bucket map, tags are the scalar
companions' tags plus the metric-group tag, the cumulative variant is
chosen exactly for cumulative metric kinds. -/
def specHistoMetric (tags : List (String × String)) (ts : Int)
    (tsConf : TimeSeriesConf) (metricKind : MetricKind)
    (circhisto : List (ℚ × Int)) : HistoMetric :=
  { name := tsConf.fieldKey
    tags := listUpsert tags "input_metric_group" tsConf.measurement
    fields := circhisto
    tm := ts
    kind := if metricKind = .cumulative then .cumulativeHistogram else .histogram }

/-! ## Concrete instances used by witnesses and counterexamples -/

/-- A concrete engine configuration: no label filters, no prefix
filters, defaults for the durations. -/
def sampleStackdriver : Stackdriver :=
  { prevEnd := 0, timeSeriesConfCache := none, filter := none, project := "p",
    metricTypePrefixExclude := [], metricTypePrefixInclude := [],
    distributionAggregationAligners := [], cacheTTL := 3600, delay := 300,
    window := 0, rateLimit := 14, gatherRawDistributionBuckets := true }

/-- The linear layout of the spec's bucket-math example: offset 0,
width 10, 3 finite buckets. -/
def exampleLinearLayout : BucketLayout := .linear ⟨3, 10, 0⟩

/-- A distribution over the example linear layout with local counts at
indices 0, 2 and 4 and zero counts at indices 1 and 3. -/
def exampleLinearDist : Distribution :=
  { count := 9, mean := 2, sumOfSquaredDeviation := 0, range := none,
    bucketOptions := some exampleLinearLayout, bucketCounts := [1, 0, 3, 0, 5] }

/-- A linear layout whose index-1 bound `offset + width = 0` collides
with the index-0 bound 0. -/
def collisionLayout : BucketLayout := .linear ⟨1, 10, -10⟩

/-- A distribution with positive counts in the two colliding buckets. -/
def collisionDist : Distribution :=
  { count := 3, mean := 0, sumOfSquaredDeviation := 0, range := none,
    bucketOptions := some collisionLayout, bucketCounts := [1, 2] }

/-- The spec's end-to-end distribution example: count 5, mean 2, one
nonzero bucket at index 1, linear layout with offset 0, width 1, one
finite bucket. -/
def exampleHistoDist : Distribution :=
  { count := 5, mean := 2, sumOfSquaredDeviation := 0, range := none,
    bucketOptions := some (.linear ⟨1, 1, 0⟩), bucketCounts := [0, 3] }

/-- A distribution like `exampleHistoDist` but with all bucket counts
zero. -/
def zeroBucketDist : Distribution :=
  { count := 5, mean := 2, sumOfSquaredDeviation := 0, range := none,
    bucketOptions := some (.linear ⟨1, 1, 0⟩), bucketCounts := [0, 0] }

/-- The config for metric type `foo` (no slash: measurement `foo`,
field key `value`). -/
def exampleConf : TimeSeriesConf := sampleStackdriver.newTimeSeriesConf "foo" 0 0

/-- The config for metric type `a/b` (measurement `a`, field key `b`). -/
def exampleConfAB : TimeSeriesConf := sampleStackdriver.newTimeSeriesConf "a/b" 0 0

/-- Refreshing one cached config: only the request's time interval is
replaced by the current window; all other components are kept. -/
def refreshConf (st en : Int) (tc : TimeSeriesConf) : TimeSeriesConf :=
  { tc with listTimeSeriesRequest :=
      { tc.listTimeSeriesRequest with interval := ⟨en, st⟩ } }

/-- The engine state after a cache hit refreshed the cached configs'
intervals: only the cache's conf slice changed, each config only in its
interval. -/
def cacheRefreshedState (s : Stackdriver) (c : TimeSeriesConfCache)
    (st en : Int) : Stackdriver :=
  let refreshed := (c.timeSeriesConfs.getD []).map (refreshConf st en)
  { s with timeSeriesConfCache := some { c with timeSeriesConfs := some refreshed } }

/-- A fresh cache (generated 100, TTL 50) holding an empty, non-nil
conf slice. -/
def witnessCache : TimeSeriesConfCache := ⟨100, some [], 50⟩

/-- The sample engine carrying `witnessCache`. -/
def witnessCachedStackdriver : Stackdriver :=
  { sampleStackdriver with timeSeriesConfCache := some witnessCache }

/-- A concrete config whose fetch will fail in the C8 witness. -/
def witnessConfFail : TimeSeriesConf :=
  { listTimeSeriesRequest :=
      { name := "projects/p", filter := "f1", interval := ⟨0, 0⟩, aggregation := none }
    measurement := "m1", fieldKey := "f1" }

/-- A concrete config whose fetch will succeed in the C8 witness. -/
def witnessConfOk : TimeSeriesConf :=
  { listTimeSeriesRequest :=
      { name := "projects/p", filter := "f2", interval := ⟨0, 0⟩, aggregation := none }
    measurement := "m2", fieldKey := "f2" }

/-- `witnessConfFail` with its interval refreshed to the cycle window
`[45, 105)`. -/
def witnessConfFailR : TimeSeriesConf :=
  { witnessConfFail with listTimeSeriesRequest :=
      { witnessConfFail.listTimeSeriesRequest with interval := ⟨105, 45⟩ } }

/-- `witnessConfOk` with its interval refreshed to the cycle window
`[45, 105)`. -/
def witnessConfOkR : TimeSeriesConf :=
  { witnessConfOk with listTimeSeriesRequest :=
      { witnessConfOk.listTimeSeriesRequest with interval := ⟨105, 45⟩ } }

/-- An engine with delay 5, no window, and a valid cache holding the
two witness configs. -/
def witnessGatherState : Stackdriver :=
  { sampleStackdriver with
      delay := 5
      timeSeriesConfCache := some ⟨100, some [witnessConfFail, witnessConfOk], 50⟩ }

/-- `witnessGatherState` after the witness cycle at `now = 110`:
previous end persisted at 105, cache holding the refreshed configs. -/
def witnessGatherStateAfter : Stackdriver :=
  { witnessGatherState with
      prevEnd := 105
      timeSeriesConfCache := some ⟨100, some [witnessConfFailR, witnessConfOkR], 50⟩ }

/-- The single grouper write of the successful witness fetch. -/
def witnessAdd : GrouperAdd := ⟨"m2", [], 7, "f2", .i 1⟩

/-- A fetch that fails on the `f1` config and succeeds on the rest. -/
def witnessFetch : FetchResult := fun tc =>
  if tc.fieldKey = "f1" then .error "boom" else .ok [witnessAdd]

/-- A client that would fail if consulted (the witness cycle hits the
cache, so it never is). -/
def witnessClient : DescriptorClient := fun _ => .error "unused"

/-- An arbitrary per-thread grouper write for the mutual-exclusion
witness. -/
def witnessAdds : Fin 2 → GrouperAdd := fun _ => ⟨"m", [], 0, "f", .i 1⟩

/-- The two-fetcher state in which thread 0 has just acquired the
grouper mutex. -/
def witnessLockedState : GrouperSyncState 2 :=
  { lockOwner := some 0, pc := Function.update (fun _ => AddPC.idle) 0 AddPC.locked,
    grouper := [] }

/-! # Theorems -/

/-- C4: `updateWindow` always returns `end = now - delay`; `start` is
`now - delay - window` when an explicit window is configured,
`now - delay - 1m` on a first cycle (zero previous end) without a
window, and the previous end otherwise; `Gather` persists the returned
end on the engine instance, so with no explicit window two consecutive
cycles have contiguous windows (`start == previousEnd`). -/
theorem updateWindow_spec (s : Stackdriver) (now now2 prevEnd : Int) :
    (s.updateWindow now prevEnd).2 = now - s.delay ∧
    (s.window ≠ 0 → (s.updateWindow now prevEnd).1 = now - s.delay - s.window) ∧
    (s.window = 0 → prevEnd = 0 →
      (s.updateWindow now prevEnd).1 = now - s.delay - defaultWindowDuration) ∧
    (s.window = 0 → prevEnd ≠ 0 → (s.updateWindow now prevEnd).1 = prevEnd) ∧
    (s.advanceWindow now).2.prevEnd = (s.advanceWindow now).1.2 ∧
    (s.window = 0 → now - s.delay ≠ 0 →
      ((s.advanceWindow now).2.advanceWindow now2).1.1 = (s.advanceWindow now).1.2) := by
  unfold Stackdriver.advanceWindow Stackdriver.updateWindow
  refine ⟨rfl, ?_, ?_, ?_, rfl, ?_⟩
  · intro hw; simp [hw]
  · intro hw hp; simp [hw, hp]
  · intro hw hp; simp [hw, hp]
  · intro hw hne; simp [hw, hne]

/-- C4 witness: with no explicit window, delay 5m, `now = 1000` and a
nonzero previous end 400, the window is `(400, 700)`. -/
theorem updateWindow_spec_witness :
    (sampleStackdriver.updateWindow 1000 400).1 = 400 ∧
    (sampleStackdriver.updateWindow 1000 400).2 = 1000 - 300 := by
  have h := updateWindow_spec sampleStackdriver 1000 0 400
  exact ⟨h.2.2.2.1 (by decide) (by decide), h.1⟩

/-- C1 counterexample: for the unrecognized aligner name `ALIGN_BOGUS`
on the config of metric type `a/b` (field key `b`), the field key
becomes `b_align_none`, not the literal configured name lowercased
(`b_align_bogus`) as the claim states. -/
theorem initForAggregate_literal_name_cex :
    (exampleConfAB.initForAggregate "ALIGN_BOGUS").fieldKey = "b_align_none" ∧
    (exampleConfAB.initForAggregate "ALIGN_BOGUS").fieldKey ≠
      exampleConfAB.fieldKey ++ "_" ++ strToLower "ALIGN_BOGUS" := by
  constructor
  · decide
  · decide

/-- C1 amended: for every configured aggregation-aligner name that is
not a recognized `Aggregation_Aligner` enumerant, `initForAggregate`
replaces the name by the zero-valued enumerant's name `ALIGN_NONE` (a
no-op passthrough aligner) without failing: the config's field key
becomes the original field key suffixed with `_align_none`, and the
attached aggregation uses a fixed 60-second alignment period with the
zero aligner. -/
theorem initForAggregate_unknown_aligner (t : TimeSeriesConf) (a : String)
    (h : aggregationAlignerTable.lookup a = none) :
    (t.initForAggregate a).fieldKey = t.fieldKey ++ "_align_none" ∧
    (t.initForAggregate a).listTimeSeriesRequest.aggregation =
      some { alignmentPeriodSeconds := 60, perSeriesAligner := 0 } ∧
    (t.initForAggregate a).measurement = t.measurement := by
  unfold TimeSeriesConf.initForAggregate alignerValueLookup
  rw [h]
  refine ⟨?_, rfl, rfl⟩
  show t.fieldKey ++ "_" ++ strToLower (alignerNameLookup 0) = t.fieldKey ++ "_align_none"
  rw [String.append_assoc]
  rfl

/-- C1 witness: `ALIGN_BOGUS` is not a recognized enumerant, and on the
config of metric type `a/b` the amended behavior is observed. -/
theorem initForAggregate_unknown_aligner_witness :
    aggregationAlignerTable.lookup "ALIGN_BOGUS" = none ∧
    (exampleConfAB.initForAggregate "ALIGN_BOGUS").fieldKey = "b" ++ "_align_none" := by
  refine ⟨by decide, ?_⟩
  have h := initForAggregate_unknown_aligner exampleConfAB "ALIGN_BOGUS" (by decide)
  rw [h.1]
  decide

/-- C5 counterexample: a cache whose age 10 is far below its TTL 50 but
whose conf slice is nil is nevertheless invalid — validity is not
equivalent to `now - generation < ttl` alone. -/
theorem cache_nil_confs_cex :
    ((⟨100, none, 50⟩ : TimeSeriesConfCache).IsValid 110) = false ∧
    (110 : Int) - (100 : Int) < (50 : Int) := by
  constructor
  · decide
  · decide

/-- C5 amended: the cache is valid iff its conf slice is non-nil and
`now - generation < ttl` (a cache stored by the builder always has a
non-nil slice, so for those TTL expiry is the only invalidation); on a
valid cache, `generatetimeSeriesConfs` does not consult the client (its
result is the same for any two clients) and returns the cached configs
with only their request interval refreshed to the current window; when
no valid cache exists, the built configs are stored with
`generation = now` and the configured cache TTL. -/
theorem configCache_spec :
    (∀ (c : TimeSeriesConfCache) (now : Int),
      c.IsValid now = true ↔
        c.timeSeriesConfs.isSome = true ∧ now - c.generated < c.ttl) ∧
    (∀ (s : Stackdriver) (c : TimeSeriesConfCache)
      (client1 client2 : DescriptorClient) (now st en : Int),
      s.timeSeriesConfCache = some c → c.IsValid now = true →
      s.generatetimeSeriesConfs client1 now st en =
        s.generatetimeSeriesConfs client2 now st en ∧
      s.generatetimeSeriesConfs client1 now st en =
        Except.ok
          ((c.timeSeriesConfs.getD []).map (refreshConf st en),
           cacheRefreshedState s c st en)) ∧
    (∀ (s : Stackdriver) (client : DescriptorClient) (now st en : Int)
      (confs : List TimeSeriesConf) (s2 : Stackdriver),
      (∀ c, s.timeSeriesConfCache = some c → c.IsValid now = false) →
      s.generatetimeSeriesConfs client now st en = Except.ok (confs, s2) →
      s2.timeSeriesConfCache = some ⟨now, some confs, s.cacheTTL⟩) := by
  refine ⟨?_, ?_, ?_⟩
  · intro c now
    simp [TimeSeriesConfCache.IsValid]
  · intro s c client1 client2 now st en hc hv
    unfold Stackdriver.generatetimeSeriesConfs
    rw [hc]
    simp [hv, refreshConf, cacheRefreshedState]
  · intro s client now st en confs s2 hinv hok
    have hbuild : s.generatetimeSeriesConfsBuild client now st en =
        Except.ok (confs, s2) := by
      rw [← hok]
      unfold Stackdriver.generatetimeSeriesConfs
      cases hcache : s.timeSeriesConfCache with
      | none => rfl
      | some c => simp [hinv c hcache]
    unfold Stackdriver.generatetimeSeriesConfsBuild at hbuild
    cases hd : s.discoverConfs client st en with
    | error e => rw [hd] at hbuild; simp at hbuild
    | ok ret =>
      rw [hd] at hbuild
      simp at hbuild
      rw [← hbuild.2, hbuild.1]

/-- C5 witness: on a fresh cache holding a non-nil conf slice, config
generation at `now = 110` ignores the client entirely. -/
theorem configCache_spec_witness :
    witnessCachedStackdriver.generatetimeSeriesConfs (fun _ => .error "a") 110 1 2 =
      witnessCachedStackdriver.generatetimeSeriesConfs (fun _ => .ok []) 110 1 2 ∧
    witnessCache.IsValid 110 = true := by
  refine ⟨(configCache_spec.2.1 witnessCachedStackdriver witnessCache
    (fun _ => .error "a") (fun _ => .ok []) 110 1 2 rfl (by decide)).1, by decide⟩

/-- Characterization of `lastIndexOfCharList`: either the character is
absent and the result is `-1`, or the result is the index of an
occurrence after which the character does not occur again. -/
theorem lastIndexOfCharList_spec (c : Char) (l : List Char) :
    (lastIndexOfCharList l c = -1 ∧ c ∉ l) ∨
    (0 ≤ lastIndexOfCharList l c ∧
      (lastIndexOfCharList l c).toNat < l.length ∧
      l.get? (lastIndexOfCharList l c).toNat = some c ∧
      c ∉ l.drop ((lastIndexOfCharList l c).toNat + 1)) := by
  induction l with
  | nil => left; exact ⟨rfl, by simp⟩
  | cons x xs ih =>
    rcases ih with ⟨h1, h2⟩ | ⟨h0, hlt, hget, hdrop⟩
    · have hr : ¬ (0 ≤ lastIndexOfCharList xs c) := by rw [h1]; decide
      by_cases hx : x = c
      · right
        have hv : lastIndexOfCharList (x :: xs) c = 0 := by
          simp only [lastIndexOfCharList]
          rw [if_neg (by simpa using hr), if_pos hx]
        refine ⟨by rw [hv], ?_, ?_, ?_⟩
        · rw [hv]; simp
        · rw [hv]; simpa using hx
        · rw [hv]; simpa using h2
      · left
        have hv : lastIndexOfCharList (x :: xs) c = -1 := by
          simp only [lastIndexOfCharList]
          rw [if_neg (by simpa using hr), if_neg hx]
        refine ⟨hv, ?_⟩
        simp only [List.mem_cons, not_or]
        exact ⟨fun hcx => hx hcx.symm, h2⟩
    · right
      have hv : lastIndexOfCharList (x :: xs) c = lastIndexOfCharList xs c + 1 := by
        simp only [lastIndexOfCharList]
        rw [if_pos (by simpa using h0)]
      have htn : (lastIndexOfCharList xs c + 1).toNat =
          (lastIndexOfCharList xs c).toNat + 1 := by omega
      refine ⟨by omega, ?_, ?_, ?_⟩
      · rw [hv, htn]; simpa using hlt
      · rw [hv, htn]; simpa using hget
      · rw [hv, htn]; simpa using hdrop

/-- C7 counterexample: the metric type `/foo` contains a `/`, yet the
field key still defaults to `value` (the source splits only at a slash
at a positive index). -/
theorem newTimeSeriesConf_default_cex :
    (sampleStackdriver.newTimeSeriesConf "/foo" 0 0).fieldKey = "value" ∧
    '/' ∈ "/foo".toList := by
  constructor
  · rfl
  · decide

/-- C7 amended: when the last `/` of the metric type sits at a positive
index, `newTimeSeriesConf` splits there — the measurement and field key
rejoin to the metric type around a `/` and the field key contains no
further `/`; otherwise (no `/` at all, or only a leading one) the
measurement is the whole metric type and the field key defaults to
`value`; and the last index is `-1` exactly when no `/` exists. -/
theorem newTimeSeriesConf_split_spec (s : Stackdriver) (metricType : String)
    (st en : Int) :
    (0 < lastIndexOfChar metricType '/' →
      (s.newTimeSeriesConf metricType st en).measurement ++ "/" ++
          (s.newTimeSeriesConf metricType st en).fieldKey = metricType ∧
      '/' ∉ (s.newTimeSeriesConf metricType st en).fieldKey.toList) ∧
    (lastIndexOfChar metricType '/' ≤ 0 →
      (s.newTimeSeriesConf metricType st en).measurement = metricType ∧
      (s.newTimeSeriesConf metricType st en).fieldKey = "value") ∧
    (lastIndexOfChar metricType '/' = -1 ↔ '/' ∉ metricType.toList) := by
  refine ⟨?_, ?_, ?_⟩
  · intro hpos
    have hspec := lastIndexOfCharList_spec '/' metricType.toList
    rcases hspec with ⟨h1, _⟩ | ⟨_, hlt, hget, hdrop⟩
    · exfalso; rw [lastIndexOfChar, h1] at hpos; omega
    · set idx := (lastIndexOfCharList metricType.toList '/').toNat with hidx
      have hcfg :
          (s.newTimeSeriesConf metricType st en).measurement =
            (metricType.toList.take idx).asString ∧
          (s.newTimeSeriesConf metricType st en).fieldKey =
            (metricType.toList.drop (idx + 1)).asString := by
        unfold Stackdriver.newTimeSeriesConf
        simp only [lastIndexOfChar] at hpos ⊢
        rw [if_pos hpos]
        exact ⟨rfl, rfl⟩
      rcases hcfg with ⟨hm, hf⟩
      constructor
      · rw [hm, hf]
        have hslash : ("/" : String) = ['/'].asString := rfl
        have happ : ∀ (a b : List Char), a.asString ++ b.asString = (a ++ b).asString :=
          fun _ _ => rfl
        rw [hslash, happ, happ, List.append_assoc]
        have hdropeq : metricType.toList.drop idx =
            '/' :: metricType.toList.drop (idx + 1) := by
          rcases List.get?_eq_some.mp hget with ⟨hb, hgetv⟩
          rw [List.drop_eq_getElem_cons hb]
          simp only [List.get_eq_getElem] at hgetv
          rw [hgetv]
        have hsingle : ['/'] ++ metricType.toList.drop (idx + 1) =
            '/' :: metricType.toList.drop (idx + 1) := rfl
        rw [hsingle, ← hdropeq, List.take_append_drop]
        rfl
      · rw [hf]
        exact hdrop
  · intro hle
    have hneg : ¬ (lastIndexOfChar metricType '/' > 0) := by omega
    unfold Stackdriver.newTimeSeriesConf
    rw [if_neg hneg]
    exact ⟨rfl, rfl⟩
  · constructor
    · intro h1
      rcases lastIndexOfCharList_spec '/' metricType.toList with ⟨_, hmem⟩ | ⟨h0, _, _, _⟩
      · exact hmem
      · exfalso; rw [lastIndexOfChar] at h1; omega
    · intro hmem
      rcases lastIndexOfCharList_spec '/' metricType.toList with ⟨h1, _⟩ | ⟨_, _, hget, _⟩
      · exact h1
      · exact absurd (List.get?_mem hget) hmem

/-- C7 witness: `custom.googleapis.com/foo/bar` splits at its last
slash into measurement `custom.googleapis.com/foo` and field key
`bar`. -/
theorem newTimeSeriesConf_split_spec_witness :
    0 < lastIndexOfChar "custom.googleapis.com/foo/bar" '/' ∧
    (sampleStackdriver.newTimeSeriesConf "custom.googleapis.com/foo/bar" 0 0).measurement ++
        "/" ++
        (sampleStackdriver.newTimeSeriesConf "custom.googleapis.com/foo/bar" 0 0).fieldKey =
      "custom.googleapis.com/foo/bar" := by
  refine ⟨by decide,
    ((newTimeSeriesConf_split_spec sampleStackdriver "custom.googleapis.com/foo/bar" 0 0).1
      (by decide)).1⟩

/-- One rendered clause of the source agrees with the spec-worded
clause (the source's include/exclude helper with the function-name
include list and nil excludes is the prefix test). -/
theorem renderLabelClause_eq (category : String) :
    renderLabelClause category = specLabelClause category :=
  funext (fun _ => rfl)

/-- The source's per-category appending step appends exactly the
spec-worded label group. -/
theorem appendLabelClauses_eq (fs category : String) (labels : List Label) :
    appendLabelClauses fs category labels = fs ++ specLabelGroup category labels := by
  cases labels with
  | nil => simp [appendLabelClauses, specLabelGroup]
  | cons l1 rest =>
    cases rest with
    | nil =>
      simp only [appendLabelClauses, specLabelGroup, List.map_cons, List.map_nil]
      rw [renderLabelClause_eq, String.append_assoc]
    | cons l2 ls =>
      simp only [appendLabelClauses, specLabelGroup, List.map_cons]
      simp only [renderLabelClause_eq]
      rw [String.append_assoc, String.append_assoc, String.append_assoc]

/-- C6: `newListTimeSeriesFilter` produces exactly the spec-worded
filter string: the base clause `metric.type = "<type>"`; the
resource-label group before the metric-label group; within a group a
single value AND-appended unparenthesized and multiple values OR-joined
and parenthesized; a value unquoted exactly when it matches (begins
with) one of the recognized filter function names, quoted as a literal
otherwise. -/
theorem newListTimeSeriesFilter_spec (s : Stackdriver) (metricType : String) :
    s.newListTimeSeriesFilter metricType = specListTimeSeriesFilter s metricType := by
  unfold Stackdriver.newListTimeSeriesFilter specListTimeSeriesFilter
  cases s.filter with
  | none => rw [String.append_empty]
  | some f =>
    obtain ⟨rl, ml⟩ := f
    cases rl with
    | nil =>
      cases ml with
      | nil => simp [specLabelGroup, String.append_empty]
      | cons m1 ms =>
        simp only [List.length_nil, List.length_cons, Nat.lt_irrefl, if_false,
          if_neg (by omega : ¬ (0 < 0)), if_pos (by omega : 0 < ms.length + 1),
          appendLabelClauses_eq]
        rw [show specLabelGroup "resource.labels." ([] : List Label) = "" from rfl,
          String.empty_append]
    | cons r1 rs =>
      cases ml with
      | nil =>
        simp only [List.length_nil, List.length_cons,
          if_pos (by omega : 0 < rs.length + 1), if_neg (by omega : ¬ (0 < 0)),
          appendLabelClauses_eq]
        rw [show specLabelGroup "metric.labels." ([] : List Label) = "" from rfl,
          String.append_empty]
      | cons m1 ms =>
        simp only [List.length_cons, if_pos (by omega : 0 < rs.length + 1),
          if_pos (by omega : 0 < ms.length + 1), appendLabelClauses_eq]
        rw [String.append_assoc]

/-- For any layout, the `numBuckets` switch yields the spec-worded
bucket-boundary count. -/
theorem circNumBuckets_layout (layout : BucketLayout) :
    circNumBuckets (getLinearBuckets (some layout))
      (getExponentialBuckets (some layout)) (getExplicitBuckets (some layout)) =
      some (specNumBuckets layout) := by
  cases layout <;> rfl

/-- For any in-range index of any layout, the source's upper-bound
switch yields the spec-worded upper bound. -/
theorem bucketUpperBound_layout_eq (layout : BucketLayout) (i : ℕ)
    (hi : i < (specNumBuckets layout).toNat) :
    bucketUpperBound (getLinearBuckets (some layout))
      (getExponentialBuckets (some layout)) (getExplicitBuckets (some layout))
      (specNumBuckets layout) i = some (specBucketBound layout i) := by
  cases layout with
  | linear lb =>
    unfold bucketUpperBound specBucketBound
    split_ifs <;> rfl
  | exponential eb =>
    unfold bucketUpperBound specBucketBound
    split_ifs <;> rfl
  | explicitBounds xb =>
    unfold bucketUpperBound specBucketBound
    split_ifs with h0 h1
    · rfl
    · rfl
    · show xb.bounds.get? i = some (xb.bounds.getD i 0)
      have hlen : i < xb.bounds.length := by
        simp only [specNumBuckets] at hi h1
        omega
      rw [List.get?_eq_get hlen, List.getD_eq_getElem?_getD,
        List.getElem?_eq_getElem hlen]
      rfl

/-- The bucket loop succeeds from any accumulator when the bound
computation succeeds at every index with positive local count. -/
theorem circHistoLoop_go_isSome (counts : List Int) (boundF : ℕ → Option ℚ)
    (l : List ℕ) :
    ∀ (acc : List (ℚ × Int)),
      (∀ i ∈ l, 0 < localBucketCount counts i → (boundF i).isSome) →
      (l.foldlM (circHistoStep counts boundF) acc).isSome := by
  induction l with
  | nil => intro acc _; simp
  | cons i t ih =>
    intro acc h
    rw [List.foldlM_cons]
    by_cases hc : 0 < localBucketCount counts i
    · obtain ⟨ub, hub⟩ := Option.isSome_iff_exists.mp (h i (by simp) hc)
      simp only [circHistoStep, if_pos hc, hub, Option.map_some]
      simpa using ih _ (fun j hj => h j (by simp [hj]))
    · simp only [circHistoStep, if_neg hc]
      simpa using ih _ (fun j hj => h j (by simp [hj]))

/-- The bucket loop from any accumulator computes, when the keys it is
about to write are fresh and pairwise distinct, the accumulator
extended by the spec-worded entries. -/
theorem circHistoLoop_go_spec (counts : List Int) (boundF : ℕ → Option ℚ)
    (boundQ : ℕ → ℚ) (l : List ℕ) :
    ∀ (acc : List (ℚ × Int)),
      (∀ i ∈ l, 0 < localBucketCount counts i → boundF i = some (boundQ i)) →
      ((acc ++ specLoopEntries counts boundQ l).map Prod.fst).Nodup →
      l.foldlM (circHistoStep counts boundF) acc =
        some (acc ++ specLoopEntries counts boundQ l) := by
  induction l with
  | nil =>
    intro acc _ _
    simp [specLoopEntries]
  | cons i t ih =>
    intro acc hb hnd
    rw [List.foldlM_cons]
    by_cases hc : 0 < localBucketCount counts i
    · have hstep : specLoopEntries counts boundQ (i :: t) =
          (boundQ i, localBucketCount counts i) :: specLoopEntries counts boundQ t := by
        simp [specLoopEntries, hc]
      rw [hstep] at hnd ⊢
      have hfresh : boundQ i ∉ acc.map Prod.fst := by
        rw [List.map_append, List.nodup_append] at hnd
        intro hmem
        exact hnd.2.2 hmem (by simp)
      simp only [circHistoStep, if_pos hc, hb i (by simp) hc, Option.map_some]
      have hup := listUpsert_of_not_mem acc (boundQ i) (localBucketCount counts i) hfresh
      rw [List.append_cons] at hnd ⊢
      have := ih (acc ++ [(boundQ i, localBucketCount counts i)])
        (fun j hj => hb j (by simp [hj])) hnd
      simpa [hup] using this
    · have hstep : specLoopEntries counts boundQ (i :: t) =
          specLoopEntries counts boundQ t := by
        simp [specLoopEntries, hc]
      rw [hstep] at hnd ⊢
      simp only [circHistoStep, if_neg hc]
      simpa using ih acc (fun j hj => hb j (by simp [hj])) hnd

/-- C10: under the precondition that bucket options carry one of the
three layouts, every slice access in `distributionToCircHisto` is in
range and the conversion succeeds; without a layout (e.g. nil bucket
options) the default branch of the bucket-count switch dereferences a
nil value, so the conversion is total exactly on distributions with a
layout. -/
theorem distributionToCircHisto_total_iff (metric : Distribution)
    (options : Option BucketLayout) :
    (distributionToCircHisto metric options).isSome = options.isSome := by
  cases options with
  | none => rfl
  | some layout =>
    simp only [distributionToCircHisto]
    rw [circNumBuckets_layout]
    simp only [Option.isSome_some]
    unfold circHistoLoop
    apply circHistoLoop_go_isSome
    intro i hi hc
    rw [bucketUpperBound_layout_eq layout i (List.mem_range.mp hi)]
    rfl

/-- C3 counterexample: in the linear layout with offset `-10` and
width `10`, bucket index 1's upper bound `offset + width = 0` collides
with index 0's bound `0`; with positive counts 1 and 2 in those two
buckets the resulting map holds a single entry carrying only the later
count, not one entry per nonzero-count index as the claim states. -/
theorem distributionToCircHisto_collision_cex :
    distributionToCircHisto collisionDist collisionDist.bucketOptions = some [(0, 2)] ∧
    localBucketCount collisionDist.bucketCounts 0 = 1 ∧
    localBucketCount collisionDist.bucketCounts 1 = 2 ∧
    specBucketBound collisionLayout 0 = 0 ∧
    specBucketBound collisionLayout 1 = 0 := by
  refine ⟨?_, by norm_num [localBucketCount, collisionDist],
    by norm_num [localBucketCount, collisionDist],
    by norm_num [specBucketBound, specNumBuckets, collisionLayout],
    by norm_num [specBucketBound, specNumBuckets, collisionLayout]⟩
  show distributionToCircHisto collisionDist (some collisionLayout) = some [(0, 2)]
  norm_num [distributionToCircHisto, collisionDist, collisionLayout, getLinearBuckets,
    getExponentialBuckets, getExplicitBuckets, circNumBuckets]
  rw [show Int.toNat 3 = 3 from rfl]
  unfold circHistoLoop
  rw [show List.range 3 = [0, 1, 2] from rfl]
  norm_num [circHistoStep, localBucketCount, bucketUpperBound, listUpsert,
    List.foldlM_cons, List.foldlM_nil]

/-- C3 amended: over `finiteBuckets + 2` bucket indices for the linear
and exponential layouts and `len(explicitBounds) + 1` for the explicit
layout, and provided the upper bounds of the nonzero-count indices are
pairwise distinct, the result contains exactly the indices with a
nonzero local count, keyed by their upper bound — 0 at index 0, the
`10^128` sentinel at the final index, `offset + width * index` for
linear, `scale * growthFactor^index` for exponential and
`bounds[index]` for explicit (indices with equal bounds would collapse
into one entry holding the last such index's count). -/
theorem distributionToCircHisto_spec (metric : Distribution) (layout : BucketLayout)
    (hkeys : ((specCircHisto metric layout).map Prod.fst).Nodup) :
    distributionToCircHisto metric (some layout) = some (specCircHisto metric layout) := by
  simp only [distributionToCircHisto]
  rw [circNumBuckets_layout]
  unfold circHistoLoop
  have hmain := circHistoLoop_go_spec metric.bucketCounts
    (bucketUpperBound (getLinearBuckets (some layout)) (getExponentialBuckets (some layout))
      (getExplicitBuckets (some layout)) (specNumBuckets layout))
    (specBucketBound layout) (List.range (specNumBuckets layout).toNat) []
    (fun i hi _ => bucketUpperBound_layout_eq layout i (List.mem_range.mp hi))
    (by simpa [specCircHisto] using hkeys)
  simpa [specCircHisto] using hmain

/-- C3 witness: the spec's bucket-math example — linear layout with
offset 0, width 10, 3 finite buckets: 5 buckets in total, index 2's
upper bound 20, the overflow index 4 at the sentinel, and the
zero-count indices 1 and 3 absent from the result. -/
theorem distributionToCircHisto_spec_witness :
    ((specCircHisto exampleLinearDist exampleLinearLayout).map Prod.fst).Nodup ∧
    distributionToCircHisto exampleLinearDist (some exampleLinearLayout) =
      some [(0, 1), (20, 3), (overflowSentinel, 5)] ∧
    specNumBuckets exampleLinearLayout = 5 ∧
    specBucketBound exampleLinearLayout 2 = 20 ∧
    specBucketBound exampleLinearLayout 4 = overflowSentinel := by
  have hlist : specCircHisto exampleLinearDist exampleLinearLayout =
      [(0, 1), (20, 3), (overflowSentinel, 5)] := by
    unfold specCircHisto specLoopEntries
    rw [show (specNumBuckets exampleLinearLayout).toNat = 5 from rfl,
      show List.range 5 = [0, 1, 2, 3, 4] from rfl]
    norm_num [exampleLinearDist, exampleLinearLayout, specNumBuckets, specBucketBound,
      localBucketCount, overflowSentinel, List.filterMap_cons, List.filterMap_nil]
  have hnd : ((specCircHisto exampleLinearDist exampleLinearLayout).map Prod.fst).Nodup := by
    rw [hlist]
    norm_num [overflowSentinel]
  refine ⟨hnd, ?_, by norm_num [specNumBuckets, exampleLinearLayout], ?_, ?_⟩
  · rw [distributionToCircHisto_spec exampleLinearDist exampleLinearLayout hnd, hlist]
  · norm_num [specBucketBound, exampleLinearLayout, specNumBuckets]
  · norm_num [specBucketBound, exampleLinearLayout, specNumBuckets, overflowSentinel]

/-- C2 counterexample: for a distribution sample over a valid linear
layout whose bucket counts are all zero, the scalar companion fields
are written but no histogram-typed metric is emitted, contradicting the
claim that every distribution sample emits a single histogram-typed
metric. -/
theorem addDistribution_empty_histo_cex :
    addDistribution zeroBucketDist [] 0 exampleConf MetricKind.cumulative =
      some (specScalarCompanions zeroBucketDist [] 0 exampleConf, none) := by
  have hconv : distributionToCircHisto zeroBucketDist zeroBucketDist.bucketOptions =
      some [] := by
    show distributionToCircHisto zeroBucketDist (some (.linear ⟨1, 1, 0⟩)) = some []
    norm_num [distributionToCircHisto, zeroBucketDist, getLinearBuckets,
      getExponentialBuckets, getExplicitBuckets, circNumBuckets]
    rw [show Int.toNat 3 = 3 from rfl]
    unfold circHistoLoop
    rw [show List.range 3 = [0, 1, 2] from rfl]
    norm_num [circHistoStep, localBucketCount, List.foldlM_cons, List.foldlM_nil]
  unfold addDistribution
  rw [show zeroBucketDist.bucketOptions = some (.linear ⟨1, 1, 0⟩) from rfl] at hconv ⊢
  rw [hconv]
  rfl

/-- C2 amended: for every distribution sample whose bucket options
convert (layout present), `addDistribution` writes the scalar companion
fields to the grouper — `<field>_count`, `<field>_mean`,
`<field>_sum_of_squared_deviation`, and exactly when a range is present
`<field>_range_min` / `<field>_range_max` — before conversion, and
then, exactly when the sparse bucket map is nonempty, emits a single
histogram-typed metric whose fields are that map, of the
cumulative-histogram variant iff the sample's metric kind is
cumulative, tagged identically to the scalar companions plus the
`input_metric_group` tag naming the owning measurement (all-zero bucket
counts emit no histogram metric). -/
theorem addDistribution_spec (metric : Distribution) (tags : List (String × String))
    (ts : Int) (tsConf : TimeSeriesConf) (metricKind : MetricKind)
    (ch : List (ℚ × Int))
    (hconv : distributionToCircHisto metric metric.bucketOptions = some ch) :
    addDistribution metric tags ts tsConf metricKind =
      some (specScalarCompanions metric tags ts tsConf,
        if ch.length > 0 then some (specHistoMetric tags ts tsConf metricKind ch)
        else none) := by
  unfold addDistribution
  rw [hconv]
  by_cases hlen : ch.length > 0
  · simp only [if_pos hlen]
    rfl
  · simp only [if_neg hlen]
    rfl

/-- C2 witness: the spec's end-to-end example — a cumulative
distribution with count 5, mean 2, one nonzero bucket (count 3 at
index 1) under linear layout (offset 0, width 1, 1 finite bucket) —
produces the scalar fields `value_count = 5`, `value_mean = 2`,
`value_sum_of_squared_deviation = 0` and one cumulative-histogram
metric with the single bucket at upper bound 1 and value 3, tagged with
the metric group. -/
theorem addDistribution_spec_witness :
    addDistribution exampleHistoDist [] 7 exampleConf MetricKind.cumulative =
      some (specScalarCompanions exampleHistoDist [] 7 exampleConf,
        some (specHistoMetric [] 7 exampleConf MetricKind.cumulative [(1, 3)])) ∧
    (specHistoMetric [] 7 exampleConf MetricKind.cumulative [(1, 3)]).kind =
      HistoKind.cumulativeHistogram ∧
    (specHistoMetric [] 7 exampleConf MetricKind.cumulative [(1, 3)]).tags =
      [("input_metric_group", "foo")] ∧
    (specScalarCompanions exampleHistoDist [] 7 exampleConf).map
        (fun a => (a.field, a.value)) =
      [("value_count", FieldValue.i 5), ("value_mean", FieldValue.q 2),
       ("value_sum_of_squared_deviation", FieldValue.q 0)] := by
  have hconv : distributionToCircHisto exampleHistoDist exampleHistoDist.bucketOptions =
      some [(1, 3)] := by
    show distributionToCircHisto exampleHistoDist (some (.linear ⟨1, 1, 0⟩)) = some [(1, 3)]
    norm_num [distributionToCircHisto, exampleHistoDist, getLinearBuckets,
      getExponentialBuckets, getExplicitBuckets, circNumBuckets]
    rw [show Int.toNat 3 = 3 from rfl]
    unfold circHistoLoop
    rw [show List.range 3 = [0, 1, 2] from rfl]
    norm_num [circHistoStep, localBucketCount, bucketUpperBound, listUpsert,
      List.foldlM_cons, List.foldlM_nil]
  refine ⟨?_, rfl, rfl, rfl⟩
  rw [addDistribution_spec exampleHistoDist [] 7 exampleConf .cumulative [(1, 3)] hconv]
  rfl

/-- The fan-out fold from any accumulator appends exactly the wrapped
errors of the failing fetches and the writes of the successful ones. -/
theorem gatherFanOut_go (fetch : FetchResult) (cs : List TimeSeriesConf) :
    ∀ (accE : List String) (accA : List GrouperAdd),
      cs.foldl
        (fun (acc : List String × List GrouperAdd) tc =>
          match fetch tc with
          | .error e => (acc.1 ++ ["list time series: " ++ e], acc.2)
          | .ok adds => (acc.1, acc.2 ++ adds))
        (accE, accA) =
      (accE ++ fetchErrors fetch cs, accA ++ fetchAdds fetch cs) := by
  induction cs with
  | nil =>
    intro accE accA
    simp [fetchErrors, fetchAdds]
  | cons c t ih =>
    intro accE accA
    rw [List.foldl_cons]
    cases hf : fetch c with
    | error e =>
      have he : fetchErrors fetch (c :: t) =
          ("list time series: " ++ e) :: fetchErrors fetch t := by
        simp [fetchErrors, hf]
      have ha : fetchAdds fetch (c :: t) = fetchAdds fetch t := by
        simp [fetchAdds, hf, Except.toOption]
      rw [he, ha]
      refine (ih (accE ++ ["list time series: " ++ e]) accA).trans ?_
      rw [List.append_assoc]
      rfl
    | ok adds =>
      have he : fetchErrors fetch (c :: t) = fetchErrors fetch t := by
        simp [fetchErrors, hf]
      have ha : fetchAdds fetch (c :: t) = adds ++ fetchAdds fetch t := by
        simp [fetchAdds, hf, Except.toOption]
      rw [he, ha]
      refine (ih accE (accA ++ adds)).trans ?_
      rw [List.append_assoc]

/-- The whole fan-out yields the error and write lists of the spec
decomposition. -/
theorem gatherFanOut_eq (fetch : FetchResult) (cs : List TimeSeriesConf) :
    gatherFanOut fetch cs = (fetchErrors fetch cs, fetchAdds fetch cs) := by
  unfold gatherFanOut
  rw [gatherFanOut_go fetch cs [] []]
  rfl

/-- C8: a client-initialization error makes `Gather` return it
immediately with no cycle output; a discovery error likewise; otherwise
the cycle returns no error, reporting exactly the failing fetches'
wrapped errors through the accumulator's error channel while the
grouped metrics are built from the successful fetches' writes alone —
a failing fetch contributes zero samples and does not affect its
siblings (partial success). -/
theorem Gather_error_routing (s : Stackdriver) (client : DescriptorClient)
    (fetch : FetchResult) (now : Int) :
    (∀ e, s.Gather (.error e) client fetch now = .error e) ∧
    (∀ e, s.gatherGenerate client now = .error e →
      s.Gather (.ok ()) client fetch now = .error e) ∧
    (∀ cs s2, s.gatherGenerate client now = .ok (cs, s2) →
      s.Gather (.ok ()) client fetch now =
        .ok (s2, ⟨fetchErrors fetch cs, groupAdds (fetchAdds fetch cs)⟩)) := by
  refine ⟨fun e => rfl, ?_, ?_⟩
  · intro e hg
    unfold Stackdriver.Gather
    rw [hg]
  · intro cs s2 hg
    unfold Stackdriver.Gather
    rw [hg]
    simp only [gatherFanOut_eq]

/-- C8 witness: a concrete cycle with two cached configs in which the
first fetch fails and the second succeeds — the cycle returns no error,
the failing fetch's wrapped error is reported, and the grouped metrics
come from the successful fetch alone. -/
theorem Gather_error_routing_witness :
    witnessGatherState.Gather (.ok ()) witnessClient witnessFetch 110 =
      .ok (witnessGatherStateAfter,
        ⟨["list time series: boom"], [⟨"m2", [], 7, [("f2", FieldValue.i 1)]⟩]⟩) := by
  have hg : witnessGatherState.gatherGenerate witnessClient 110 =
      .ok ([witnessConfFailR, witnessConfOkR], witnessGatherStateAfter) := by
    rfl
  have h := (Gather_error_routing witnessGatherState witnessClient witnessFetch 110).2.2
    [witnessConfFailR, witnessConfOkR] witnessGatherStateAfter hg
  rw [h]
  rfl

/-- The lock-discipline invariant holds initially. -/
theorem grouperSyncInv_init (n : ℕ) : grouperSyncInv (grouperInit n) := by
  intro t h
  rcases h with h | h <;> exact absurd h (by simp [grouperInit])

/-- Every step of the locked grouper's interleaving semantics preserves
the lock-discipline invariant. -/
theorem grouperSyncInv_step {n : ℕ} {adds : Fin n → GrouperAdd}
    {s s2 : GrouperSyncState n} (hinv : grouperSyncInv s)
    (hstep : GrouperStep n adds s s2) : grouperSyncInv s2 := by
  cases hstep with
  | lock t hfree hidle =>
    intro u hu
    by_cases hut : u = t
    · subst hut; rfl
    · have hpc : Function.update s.pc t AddPC.locked u = s.pc u :=
        Function.update_noteq hut _ _
      have hcs : inCriticalSection s u := by
        rcases hu with hu | hu
        · exact Or.inl (by rw [← hpc]; exact hu)
        · exact Or.inr (by rw [← hpc]; exact hu)
      have := hinv u hcs
      rw [hfree] at this
      exact absurd this (by simp)
  | write t howner hpc0 =>
    intro u hu
    by_cases hut : u = t
    · subst hut; rfl
    · have hpc : Function.update s.pc t AddPC.wrote u = s.pc u :=
        Function.update_noteq hut _ _
      have hcs : inCriticalSection s u := by
        rcases hu with hu | hu
        · exact Or.inl (by rw [← hpc]; exact hu)
        · exact Or.inr (by rw [← hpc]; exact hu)
      have := hinv u hcs
      rw [howner] at this
      exact absurd (Option.some_inj.mp this) (fun h => hut h.symm)
  | unlock t howner hpc0 =>
    intro u hu
    by_cases hut : u = t
    · subst hut
      have hred : Function.update s.pc u AddPC.finished u = AddPC.finished :=
        Function.update_same _ _ _
      rcases hu with hu | hu
      · exact absurd (hred.symm.trans hu) (by simp)
      · exact absurd (hred.symm.trans hu) (by simp)
    · have hpc : Function.update s.pc t AddPC.finished u = s.pc u :=
        Function.update_noteq hut _ _
      have hcs : inCriticalSection s u := by
        rcases hu with hu | hu
        · exact Or.inl (by rw [← hpc]; exact hu)
        · exact Or.inr (by rw [← hpc]; exact hu)
      have := hinv u hcs
      rw [howner] at this
      exact absurd (Option.some_inj.mp this) (fun h => hut h.symm)

/-- The lock-discipline invariant holds in every reachable state. -/
theorem grouperSyncInv_reachable {n : ℕ} {adds : Fin n → GrouperAdd}
    {s : GrouperSyncState n} (h : GrouperReachable n adds s) :
    grouperSyncInv s := by
  induction h with
  | refl => exact grouperSyncInv_init n
  | tail _ hstep ih => exact grouperSyncInv_step ih hstep

/-- C9: in every reachable interleaving of concurrent fetchers calling
`lockedSeriesGrouper.Add`, at most one fetcher is inside the critical
section (between `g.Lock()` and the deferred `g.Unlock()`) at a time —
in particular the delegated grouper write, which the model performs
only while holding the mutex, is serialized, so no two fetchers write
unsynchronized. -/
theorem lockedSeriesGrouper_mutual_exclusion (n : ℕ) (adds : Fin n → GrouperAdd)
    (s : GrouperSyncState n) (t1 t2 : Fin n)
    (hreach : GrouperReachable n adds s)
    (h1 : inCriticalSection s t1) (h2 : inCriticalSection s t2) : t1 = t2 := by
  have hinv := grouperSyncInv_reachable hreach
  have e1 := hinv t1 h1
  have e2 := hinv t2 h2
  rw [e1] at e2
  exact Option.some_inj.mp e2

/-- C9 witness: in the reachable two-fetcher state where thread 0 has
acquired the mutex, thread 0 is in the critical section and mutual
exclusion instantiates. -/
theorem lockedSeriesGrouper_mutual_exclusion_witness :
    inCriticalSection witnessLockedState 0 ∧ (0 : Fin 2) = 0 := by
  have hcs : inCriticalSection witnessLockedState (0 : Fin 2) :=
    Or.inl rfl
  have hreach : GrouperReachable 2 witnessAdds witnessLockedState :=
    Relation.ReflTransGen.single (GrouperStep.lock (grouperInit 2) 0 rfl rfl)
  exact ⟨hcs, lockedSeriesGrouper_mutual_exclusion 2 witnessAdds witnessLockedState
    0 0 hreach hcs hcs⟩

end CUA
